import Mathlib

/-!
Verification of the Bloomberg sftp request/response core (`src/bberg/sftp.py`).

The Python source is shallowly embedded:
* Python `str` values are modelled as `String` or as `List Char` (the parser
  works on `List Char` so that every operation is structurally recursive and
  kernel-evaluable).
* Python floats parsed by `float(...)` are modelled exactly as the decimal
  value `m · 10^e` denoted by the literal, kept as the integer pair
  `(m, e)` (mantissa and exponent); a float is zero — Python-falsy — iff
  its mantissa is zero.  The decimal-literal grammar (optional sign,
  digits, fraction, exponent, surrounding whitespace) is modelled, the
  special tokens `nan`/`inf` and underscore digit grouping are outside the
  model.
* `pandas.DataFrame` is modelled as an explicit index list, column list and
  an association list of present cells (`NaN` cells are simply absent).
* Exceptions (`AssertionError`, `ValueError`, `IndexError`) are modelled with
  `Except ParseError`.
* The sftp transport is an external collaborator: it is modelled by a
  function `ex : Nat → String → Bool` telling whether the reply file of a
  request id exists at a given poll cycle, and `content : String → String`
  giving the decompressed decoded reply text (the gzip codec is out of
  scope).
-/

/-! ### Python string primitives, modelled over `List Char` -/

/-- Iterating `StringIO(response)` yields the lines of `response`, each line
keeping its trailing newline; a final fragment without a newline is also
yielded; the empty string yields nothing. -/
def pyLinesAux : List Char → List Char → List (List Char)
  | acc, [] => if acc = [] then [] else [acc.reverse]
  | acc, c :: cs =>
    if c = '\n' then (acc.reverse ++ ['\n']) :: pyLinesAux [] cs
    else pyLinesAux (c :: acc) cs

/-- The lines of a Python string, as iterated by `StringIO`. -/
def pyLines (s : List Char) : List (List Char) :=
  pyLinesAux [] s

/-- `str.split(sep, maxsplit)` for a one-character separator: splits at the
first `maxsplit` occurrences of `sep`, the remainder (separators included)
forms the last part. -/
def pySplitAux (sep : Char) : Nat → List Char → List Char → List (List Char)
  | _, acc, [] => [acc.reverse]
  | 0, acc, rest => [acc.reverse ++ rest]
  | k + 1, acc, c :: cs =>
    if c = sep then acc.reverse :: pySplitAux sep k [] cs
    else pySplitAux sep (k + 1) (c :: acc) cs

/-- `line.split('|', 4)` from the parser. -/
def pySplitPipe4 (s : List Char) : List (List Char) :=
  pySplitAux '|' 4 [] s

/-- `s.split('/')` with no bound on the number of splits (the length of the
string bounds the number of separators, so a budget of `s.length` is exact). -/
def pySplitSlash (s : List Char) : List (List Char) :=
  pySplitAux '/' s.length [] s

/-- The ASCII whitespace stripped by Python `int(...)` and `float(...)`. -/
def isPySpace (c : Char) : Bool :=
  c = ' ' || c = '\t' || c = '\n' || c = '\r' || c = '\x0b' || c = '\x0c'

/-- `str.strip()` restricted to ASCII whitespace. -/
def pyStrip (s : List Char) : List Char :=
  ((s.dropWhile isPySpace).reverse.dropWhile isPySpace).reverse

/-- The numeric value of a list of decimal digit characters. -/
def digitsVal (ds : List Char) : Nat :=
  ds.foldl (fun a c => a * 10 + (c.toNat - '0'.toNat)) 0

/-- `int(s)`: strips whitespace, accepts an optional sign followed by a
nonempty run of decimal digits, otherwise raises (`none`). -/
def pyIntParse (s : List Char) : Option Int :=
  match pyStrip s with
  | '+' :: ds => if ds ≠ [] ∧ ds.all Char.isDigit then some (digitsVal ds) else none
  | '-' :: ds => if ds ≠ [] ∧ ds.all Char.isDigit then some (-(digitsVal ds : Int)) else none
  | ds => if ds ≠ [] ∧ ds.all Char.isDigit then some (digitsVal ds) else none

/-- Exponent part of a float literal: consumes the whole remainder or fails. -/
def pyFloatExp : List Char → Option Int
  | [] => some 0
  | e :: rest =>
    if e = 'e' ∨ e = 'E' then
      match rest with
      | '+' :: ds => if ds ≠ [] ∧ ds.all Char.isDigit then some (digitsVal ds) else none
      | '-' :: ds => if ds ≠ [] ∧ ds.all Char.isDigit then some (-(digitsVal ds : Int)) else none
      | ds => if ds ≠ [] ∧ ds.all Char.isDigit then some (digitsVal ds) else none
    else none

/-- `float(s)` on decimal literals: strips whitespace, optional sign, integer
part and optional fractional part (at least one digit in total), optional
exponent.  The result is the denoted value `m · 10^e` as the pair `(m, e)`;
the float compares equal to `0.0` exactly when `m = 0`. -/
def pyFloatParse (s : List Char) : Option (Int × Int) :=
  let t := pyStrip s
  let signed : Int × List Char :=
    match t with
    | '+' :: r => (1, r)
    | '-' :: r => (-1, r)
    | r => (1, r)
  let ip := signed.2.takeWhile Char.isDigit
  let r1 := signed.2.dropWhile Char.isDigit
  let fpr : List Char × List Char :=
    match r1 with
    | '.' :: r => (r.takeWhile Char.isDigit, r.dropWhile Char.isDigit)
    | r => ([], r)
  if ip = [] ∧ fpr.1 = [] then none
  else
    match pyFloatExp fpr.2 with
    | none => none
    | some ex =>
      some (signed.1 * ((digitsVal ip : Int) * 10 ^ fpr.1.length + (digitsVal fpr.1 : Int)),
            ex - fpr.1.length)

/-! ### Calendar dates (`datetime.datetime.strptime(s, '%d/%m/%Y')`) -/

/-- Gregorian leap year. -/
def isLeap (y : Nat) : Bool :=
  y % 4 = 0 && (y % 100 ≠ 0 || y % 400 = 0)

/-- Days in a month of a given year. -/
def daysInMonth (y m : Nat) : Nat :=
  if m = 2 then (if isLeap y then 29 else 28)
  else if m = 4 ∨ m = 6 ∨ m = 9 ∨ m = 11 then 30
  else 31

/-- Days in the given year before the first of month `m`. -/
def daysBeforeMonth (y m : Nat) : Nat :=
  (List.range (m - 1)).foldl (fun a i => a + daysInMonth y (i + 1)) 0

/-- `datetime.date(y, m, d).toordinal()`: day number with 0001-01-01 = 1. -/
def toOrdinal (y m d : Nat) : Nat :=
  (y - 1) * 365 + (y - 1) / 4 - (y - 1) / 100 + (y - 1) / 400 + daysBeforeMonth y m + d

/-- `%d` of `strptime`: one or two digits denoting 1-31. -/
def parseDayTok (s : List Char) : Option Nat :=
  if s.all Char.isDigit ∧ (s.length = 1 ∨ s.length = 2) ∧ 1 ≤ digitsVal s ∧ digitsVal s ≤ 31
  then some (digitsVal s) else none

/-- `%m` of `strptime`: one or two digits denoting 1-12. -/
def parseMonthTok (s : List Char) : Option Nat :=
  if s.all Char.isDigit ∧ (s.length = 1 ∨ s.length = 2) ∧ 1 ≤ digitsVal s ∧ digitsVal s ≤ 12
  then some (digitsVal s) else none

/-- `%Y` of `strptime`: exactly four digits; `datetime` requires year ≥ 1. -/
def parseYearTok (s : List Char) : Option Nat :=
  if s.all Char.isDigit ∧ s.length = 4 ∧ 1 ≤ digitsVal s
  then some (digitsVal s) else none

/-- `datetime.datetime.strptime(s, '%d/%m/%Y')`, reduced to the date ordinal.
Fails (raises `ValueError` in Python) unless the whole string is
day `/` month `/` four-digit year with the day valid for that month. -/
def parseDate (s : List Char) : Option Nat :=
  match pySplitSlash s with
  | [ds, ms, ys] =>
    match parseDayTok ds, parseMonthTok ms, parseYearTok ys with
    | some d, some m, some y =>
      if d ≤ daysInMonth y m then some (toOrdinal y m d) else none
    | _, _, _ => none
  | _ => none

/-! ### The pandas data model used by the parser -/

/-- `pd.date_range(begin, end)` at the level of day ordinals: every day of the
inclusive range, in order; empty when `e < b`. -/
def pdDateRange (b e : Nat) : List Nat :=
  List.range' b (e + 1 - b)

/-- Ordered association-list lookup (Python `dict` access / `in`). -/
def lookupA {α β : Type} [DecidableEq α] : List (α × β) → α → Option β
  | [], _ => none
  | (k, v) :: rest, a => if a = k then some v else lookupA rest a

/-- Replace the value stored at a key, or append the binding (Python
`d[k] = v`). -/
def setA {α β : Type} [DecidableEq α] : List (α × β) → α → β → List (α × β)
  | [], a, b => [(a, b)]
  | (k, v) :: rest, a, b => if a = k then (k, b) :: rest else (k, v) :: setA rest a b

/-- Apply a function to the value stored at a key, if present. -/
def updateA {α β : Type} [DecidableEq α] : List (α × β) → α → (β → β) → List (α × β)
  | [], _, _ => []
  | (k, v) :: rest, a, f => if a = k then (k, f v) :: rest else (k, v) :: updateA rest a f

/-- A `pandas.DataFrame` as used by the parser: a row index of date
ordinals, a column list, and the present (non-`NaN`) cells. -/
structure DataFrame where
  index : List Nat
  columns : List (List Char)
  cells : List ((Nat × List Char) × (Int × Int))
deriving DecidableEq

/-- `pd.DataFrame(index=pd.date_range(b, e), columns=fields)`: one row per
date of the inclusive range, one column per requested field, all cells
absent. -/
def mkEmptyDF (b e : Nat) (fields : List (List Char)) : DataFrame :=
  ⟨pdDateRange b e, fields, []⟩

/-- `df.loc[r, c] = v`: stores the value and, as pandas setting-with-
enlargement does, appends the row label and the column label when they are
not already present. -/
def DataFrame.locSet (df : DataFrame) (r : Nat) (c : List Char) (v : Int × Int) : DataFrame :=
  { index := if r ∈ df.index then df.index else df.index ++ [r]
    columns := if c ∈ df.columns then df.columns else df.columns ++ [c]
    cells := setA df.cells (r, c) v }

/-! ### The response parser state machine -/

/-- The uncaught exceptions `parse_hist_security_response` can raise. -/
inductive ParseError where
  /-- `assert bits[0] == sec` failed: the offending token and the current
  entity. -/
  | assertMismatch (tok sec : List Char)
  /-- `int(...)` or `strptime(...)` raised `ValueError` on this token. -/
  | valueError (tok : List Char)
  /-- `bits[i]` was out of range. -/
  | indexError (i : Nat)
deriving DecidableEq

/-- The local state of `parse_hist_security_response` between lines, plus the
warnings emitted through `logger.warn` (return code and entity). -/
structure ParseState where
  in_sec : Bool
  sec : List Char
  col : List Char
  dframes : List (List Char × DataFrame)
  warnings : List (Int × List Char)
deriving DecidableEq

/-- The state at entry of `parse_hist_security_response`. -/
def initState : ParseState :=
  { in_sec := false, sec := [], col := [], dframes := [], warnings := [] }

/-- One iteration of the `for line in StringIO(response)` loop. -/
def processLine (b e : Nat) (fields : List (List Char)) (st : ParseState)
    (line : List Char) : Except ParseError ParseState :=
  match pySplitPipe4 line with
  | [] => .ok st
  | b0 :: rest =>
    if st.in_sec then
      if b0 = "END SECURITY".data then
        match rest.get? 2 with
        | none => .error (.indexError 3)
        | some t =>
          match pyIntParse t with
          | none => .error (.valueError t)
          | some rc =>
            .ok { st with
              in_sec := false
              warnings := if rc ≠ 0 then st.warnings ++ [(rc, st.sec)] else st.warnings }
      else
        if b0 = st.sec then
          match rest.get? 1 with
          | none => .error (.indexError 2)
          | some vtok =>
            match pyFloatParse vtok with
            | none => .ok st
            | some v =>
              if v.1 = 0 then .ok st
              else
                match rest.get? 0 with
                | none => .error (.indexError 1)
                | some dtok =>
                  match parseDate dtok with
                  | none => .error (.valueError dtok)
                  | some d =>
                    .ok { st with
                      dframes := updateA st.dframes st.sec (fun df => df.locSet d st.col v) }
        else .error (.assertMismatch b0 st.sec)
    else
      if b0 = "START SECURITY".data then
        match rest.get? 0 with
        | none => .error (.indexError 1)
        | some s =>
          match rest.get? 1 with
          | none => .error (.indexError 2)
          | some c =>
            .ok { st with
              in_sec := true, sec := s, col := c
              dframes :=
                if (lookupA st.dframes s).isSome then st.dframes
                else st.dframes ++ [(s, mkEmptyDF b e fields)] }
      else .ok st

/-- The `for` loop of `parse_hist_security_response`, threading the state and
propagating the first uncaught exception. -/
def parseLines (b e : Nat) (fields : List (List Char)) :
    ParseState → List (List Char) → Except ParseError ParseState
  | st, [] => .ok st
  | st, l :: ls =>
    match processLine b e fields st l with
    | .error er => .error er
    | .ok st2 => parseLines b e fields st2 ls

/-- `parse_hist_security_response(response, begin_date, end_date, fields)`;
the result carries the returned `dframes` together with the logged warnings. -/
def parse_hist_security_response (response : String) (b e : Nat)
    (fields : List String) : Except ParseError ParseState :=
  parseLines b e (fields.map String.data) initState (pyLines response.data)

/-! ### The polling engine (`Sftp.request` and `get_response`) -/

/-- The bookkeeping of `Sftp.request`: the still-pending request ids and the
`responses` dictionary (insertion-ordered pairs of id and raw text). -/
structure PollState where
  pending : List String
  responses : List (String × String)
deriving DecidableEq

/-- One polling cycle of `Sftp.request`: after the fixed wait, each
still-pending id is checked with `get_response`; ids whose reply file exists
have their decompressed text stored under their id and leave the pending
list (`pending = [rid for rid in pending if not get_response(...)]`).
`ex n rid` models `sftp.exists('{rid}.dat.gz')` during cycle `n`, and
`content rid` the decompressed decoded reply text. -/
def pollCycle (ex : Nat → String → Bool) (content : String → String) (n : Nat)
    (s : PollState) : PollState :=
  { pending := s.pending.filter (fun rid => !(ex n rid))
    responses :=
      s.responses ++ (s.pending.filter (fun rid => ex n rid)).map (fun rid => (rid, content rid)) }

/-- The submission phase of `Sftp.request`: every request is written via
`send_request` and its id recorded as pending; `responses` starts empty. -/
def submitAll (reqs : List (String × String)) : PollState :=
  { pending := reqs.map Prod.fst, responses := [] }

/-- The state of `Sftp.request` after `k` polling cycles. -/
def runPoll (ex : Nat → String → Bool) (content : String → String)
    (reqs : List (String × String)) : Nat → PollState
  | 0 => submitAll reqs
  | k + 1 => pollCycle ex content k (runPoll ex content reqs k)

/-! ### The request builder (`Sftp.__init__`, `_build_header`,
`_build_fields`, `_build_data`, `build_request`) -/

/-- `'\n'.join(...)` (and `''.join` when `sep` is empty). -/
def joinSep (sep : String) : List String → String
  | [] => ""
  | [x] => x
  | x :: y :: rest => x ++ sep ++ joinSep sep (y :: rest)

/-- The builder session state: the timestamp string captured at
construction, the monotonically increasing request counter, and the
connection data. -/
structure Sftp where
  tstr : String
  request_id : Nat
  host : String
  username : String
  password : String

/-- `Sftp._opening_stanza`. -/
def Sftp.opening_stanza : String := "START-OF-FILE\n"

/-- `Sftp._closing_stanza`. -/
def Sftp.closing_stanza : String := "\nEND-OF-FILE\n"

/-- `Sftp._start_of_fields`. -/
def Sftp.start_of_fields : String := "\nSTART-OF-FIELDS\n"

/-- `Sftp._end_of_fields`. -/
def Sftp.end_of_fields : String := "\nEND-OF-FIELDS\n"

/-- `Sftp._start_of_data`. -/
def Sftp.start_of_data : String := "START-OF-DATA\n"

/-- `Sftp._end_of_data`. -/
def Sftp.end_of_data : String := "\nEND-OF-DATA\n"

/-- `Sftp._build_header`: increments the session counter, forms the request
id `bbpy_<timestamp>_<counter>`, and returns the header text: the
triple-quoted template (kept verbatim, indentation included) with the firm
name and reply-file name substituted, followed by the caller's header
options joined one `KEY=VALUE` per line.  Returns the mutated session, the
id and the header. -/
def Sftp.build_header (s : Sftp) (headers : List (String × String)) :
    Sftp × String × String :=
  let s2 := { s with request_id := s.request_id + 1 }
  let rid := "bbpy_" ++ s.tstr ++ "_" ++ Nat.repr s2.request_id
  (s2, rid,
    "\n            FIRMNAME=" ++ s.username
      ++ "\n            REPLYFILENAME=" ++ rid
      ++ ".dat\n            COMPRESS=yes\n            PROGRAMFLAG=oneshot\n        "
      ++ joinSep "\n" (headers.map (fun kv => kv.1 ++ "=" ++ kv.2)))

/-- `Sftp._build_fields`. -/
def Sftp.build_fields (fields : List String) : String :=
  Sftp.start_of_fields ++ joinSep "\n" fields ++ Sftp.end_of_fields

/-- `Sftp._build_data`. -/
def Sftp.build_data (data : List String) : String :=
  Sftp.start_of_data ++ joinSep "\n" data ++ Sftp.end_of_data

/-- `Sftp.build_request`: the id from `_build_header` and the concatenation
`''.join([opening, header, fields, data, closing])`. -/
def Sftp.build_request (s : Sftp) (headers : List (String × String))
    (fields data : List String) : Sftp × String × String :=
  let r := s.build_header headers
  (r.1, r.2.1,
    Sftp.opening_stanza ++ r.2.2 ++ Sftp.build_fields fields
      ++ Sftp.build_data data ++ Sftp.closing_stanza)

/-- The request ids produced by consecutive `build_request` calls in one
session, one call per element of `argss` (each element carries that call's
header options, field list and data lines). -/
def Sftp.ridsOf (s : Sftp) :
    List (List (String × String) × List String × List String) → List String
  | [] => []
  | a :: rest =>
    let r := s.build_request a.1 a.2.1 a.2.2
    r.2.1 :: r.1.ridsOf rest

/-! ### Spec-side layout of the request text (for the refinement claim
about `build_request`): the same text assembled line by line as the spec
describes it — marker lines, mandatory header entries followed by the
caller's options one `KEY=VALUE` per line, fields and data blocks between
their markers.  The fixed indentation of the header lines is layout taken
from the wire format. -/

/-- The mandatory header entries, one per line (a leading empty line
precedes the block in the wire format). -/
def specMandatoryLines (username rid : String) : List String :=
  ["",
   "            FIRMNAME=" ++ username,
   "            REPLYFILENAME=" ++ rid ++ ".dat",
   "            COMPRESS=yes",
   "            PROGRAMFLAG=oneshot"]

/-- The caller's header options, one `KEY=VALUE` per line (the first one
sits on the line that closes the template, hence its leading blanks). -/
def specOptionLines (headers : List (String × String)) : List String :=
  match headers with
  | [] => ["        "]
  | kv :: rest => ("        " ++ kv.1 ++ "=" ++ kv.2) :: rest.map (fun p => p.1 ++ "=" ++ p.2)

/-- The header block: mandatory entries then caller options, joined into
lines. -/
def specHeaderBlock (username rid : String) (headers : List (String × String)) : String :=
  joinSep "\n" (specMandatoryLines username rid ++ specOptionLines headers)

/-- The whole request text as the spec lays it out: opening marker line,
header block, fields block between its markers (one field per line), data
block between its markers (one data line per line), closing marker line. -/
def specRequestText (username rid : String) (headers : List (String × String))
    (fields data : List String) : String :=
  Sftp.opening_stanza
    ++ specHeaderBlock username rid headers
    ++ (Sftp.start_of_fields ++ joinSep "\n" fields ++ Sftp.end_of_fields)
    ++ (Sftp.start_of_data ++ joinSep "\n" data ++ Sftp.end_of_data)
    ++ Sftp.closing_stanza

/-- The shape invariant of a parser table: the rows start with exactly the
dates of the inclusive request range (extra rows, created by pandas
enlargement for out-of-range dates, can only follow), no row label repeats,
and the columns start with exactly the requested fields. -/
def GoodDF (b e : Nat) (fields : List (List Char)) (df : DataFrame) : Prop :=
  (∃ r1, df.index = pdDateRange b e ++ r1) ∧ df.index.Nodup
    ∧ ∃ r2, df.columns = fields ++ r2

/-- Every table in the parser state satisfies the shape invariant. -/
def GoodState (b e : Nat) (fields : List (List Char)) (st : ParseState) : Prop :=
  ∀ s df, lookupA st.dframes s = some df → GoodDF b e fields df

/-! ## Shared lemmas -/

/-- After any number of polling cycles, the completed ids followed by the
pending ids are a permutation of the submitted ids. -/
theorem runPoll_perm (ex : Nat → String → Bool) (content : String → String)
    (reqs : List (String × String)) (k : Nat) :
    ((runPoll ex content reqs k).responses.map Prod.fst
        ++ (runPoll ex content reqs k).pending).Perm (reqs.map Prod.fst) := by
  induction k with
  | zero => simp [runPoll, submitAll]
  | succ k ih =>
    simp only [runPoll, pollCycle, List.map_append]
    have hcomp : ∀ l : List String, (l.map (fun rid => (rid, content rid))).map Prod.fst = l := by
      intro l
      induction l with
      | nil => rfl
      | cons a t ih => simp [ih]
    rw [hcomp, List.append_assoc]
    refine List.Perm.trans ?_ ih
    exact List.Perm.append_left _ (List.filter_append_perm _ _)

/-- An id still pending after `k` cycles had a non-existing reply file at
every cycle so far. -/
theorem runPoll_pending_ex_false (ex : Nat → String → Bool) (content : String → String)
    (reqs : List (String × String)) :
    ∀ k, ∀ rid ∈ (runPoll ex content reqs k).pending, ∀ n, n < k → ex n rid = false := by
  intro k
  induction k with
  | zero => intro rid _ n hn; exact absurd hn (Nat.not_lt_zero n)
  | succ k ih =>
    intro rid h n hn
    have hm : rid ∈ (runPoll ex content reqs k).pending ∧ (!(ex k rid)) = true := by
      simpa [runPoll, pollCycle, List.mem_filter] using h
    rcases Nat.lt_succ_iff_lt_or_eq.mp hn with h1 | h1
    · exact ih rid hm.1 n h1
    · subst h1; simpa using hm.2

/-- Every stored response carries the transport's reply text for its id. -/
theorem runPoll_responses_content (ex : Nat → String → Bool) (content : String → String)
    (reqs : List (String × String)) (k : Nat) :
    ∀ p ∈ (runPoll ex content reqs k).responses, p.2 = content p.1 := by
  induction k with
  | zero => simp [runPoll, submitAll]
  | succ k ih =>
    intro p hp
    simp only [runPoll, pollCycle, List.mem_append] at hp
    rcases hp with hp | hp
    · exact ih p hp
    · obtain ⟨rid, _, rfl⟩ := List.mem_map.mp hp; rfl

/-- A finite set of ids that all eventually resolve has a common cycle bound
by which each has resolved at least once. -/
theorem exists_resolve_bound (ex : Nat → String → Bool) (l : List String)
    (h : ∀ rid ∈ l, ∃ n, ex n rid = true) :
    ∃ N, ∀ rid ∈ l, ∃ n, n < N ∧ ex n rid = true := by
  induction l with
  | nil => exact ⟨0, by simp⟩
  | cons a t ih =>
    obtain ⟨n, hn⟩ := h a (by simp)
    obtain ⟨N, hN⟩ := ih (fun rid hr => h rid (by simp [hr]))
    refine ⟨max (n + 1) N, ?_⟩
    intro rid hr
    rcases List.mem_cons.mp hr with rfl | hr
    · exact ⟨n, lt_of_lt_of_le (Nat.lt_succ_self n) (le_max_left _ _), hn⟩
    · obtain ⟨m, hm, hx⟩ := hN rid hr
      exact ⟨m, lt_of_lt_of_le hm (le_max_right _ _), hx⟩

/-! ## Claims -/

/-- C1: after every poll cycle, the number of completed responses plus the
number of still-pending identifiers equals the number of submitted requests,
for any existence pattern (any subset resolving in any order); moreover the
completed ids together with the pending ids are exactly a permutation of the
submitted ids, so none is lost or double-counted. -/
theorem c1_poll_invariant (ex : Nat → String → Bool) (content : String → String)
    (reqs : List (String × String)) (k : Nat) :
    (runPoll ex content reqs k).responses.length + (runPoll ex content reqs k).pending.length
        = reqs.length
    ∧ ((runPoll ex content reqs k).responses.map Prod.fst
        ++ (runPoll ex content reqs k).pending).Perm (reqs.map Prod.fst) := by
  have h := runPoll_perm ex content reqs k
  refine ⟨?_, h⟩
  have hl := h.length_eq
  rw [List.length_append, List.length_map, List.length_map] at hl
  exact hl

/-- C8: if every submitted identifier's reply file eventually exists, the
polling engine terminates (some cycle count empties the pending list) and the
returned mapping holds the reply text of every submitted identifier exactly
once: its ids are a permutation of the submitted ids (hence duplicate-free),
and each is paired with the transport's text for it. -/
theorem c8_poll_complete (ex : Nat → String → Bool) (content : String → String)
    (reqs : List (String × String))
    (hnd : (reqs.map Prod.fst).Nodup)
    (hev : ∀ rid ∈ reqs.map Prod.fst, ∃ n, ex n rid = true) :
    ∃ k, (runPoll ex content reqs k).pending = []
      ∧ ((runPoll ex content reqs k).responses.map Prod.fst).Perm (reqs.map Prod.fst)
      ∧ ((runPoll ex content reqs k).responses.map Prod.fst).Nodup
      ∧ ∀ p ∈ (runPoll ex content reqs k).responses, p.2 = content p.1 := by
  obtain ⟨N, hN⟩ := exists_resolve_bound ex (reqs.map Prod.fst) hev
  have hpend : (runPoll ex content reqs N).pending = [] := by
    by_contra hne
    obtain ⟨rid, hrid⟩ := List.exists_mem_of_ne_nil _ hne
    have hkeys : rid ∈ reqs.map Prod.fst :=
      (runPoll_perm ex content reqs N).mem_iff.mp (List.mem_append_right _ hrid)
    obtain ⟨n, hnN, hx⟩ := hN rid hkeys
    have hf := runPoll_pending_ex_false ex content reqs N rid hrid n hnN
    rw [hf] at hx
    cases hx
  have hperm : ((runPoll ex content reqs N).responses.map Prod.fst).Perm (reqs.map Prod.fst) := by
    have h := runPoll_perm ex content reqs N
    rwa [hpend, List.append_nil] at h
  exact ⟨N, hpend, hperm, hperm.nodup_iff.mpr hnd, runPoll_responses_content ex content reqs N⟩

/-- C8 witness: three identifiers, one resolving in the first cycle and the
remaining two in the second, all three raw texts returned without
duplication. -/
theorem c8_poll_complete_witness :
    ∃ k, (runPoll (fun n rid => rid == "a" || decide (1 ≤ n)) (fun rid => "raw " ++ rid)
            [("a", "ta"), ("b", "tb"), ("c", "tc")] k).pending = []
      ∧ (((runPoll (fun n rid => rid == "a" || decide (1 ≤ n)) (fun rid => "raw " ++ rid)
            [("a", "ta"), ("b", "tb"), ("c", "tc")] k).responses.map Prod.fst).Perm
          ([("a", "ta"), ("b", "tb"), ("c", "tc")].map Prod.fst))
      ∧ (((runPoll (fun n rid => rid == "a" || decide (1 ≤ n)) (fun rid => "raw " ++ rid)
            [("a", "ta"), ("b", "tb"), ("c", "tc")] k).responses.map Prod.fst).Nodup)
      ∧ ∀ p ∈ (runPoll (fun n rid => rid == "a" || decide (1 ≤ n)) (fun rid => "raw " ++ rid)
            [("a", "ta"), ("b", "tb"), ("c", "tc")] k).responses,
          p.2 = (fun rid => "raw " ++ rid) p.1 :=
  c8_poll_complete (fun n rid => rid == "a" || decide (1 ≤ n)) (fun rid => "raw " ++ rid)
    [("a", "ta"), ("b", "tb"), ("c", "tc")] (by decide)
    (fun rid _ => ⟨1, by simp⟩)

/-- C9: the parser is deterministic — the same raw text, date bounds and
field list always produce the same result (the embedding is a pure function
of its arguments; the Python original keeps no state outside the call). -/
theorem c9_parse_deterministic (r : String) (b e : Nat) (f : List String) :
    parse_hist_security_response r b e f = parse_hist_security_response r b e f := rfl

/-- C2: on a data line inside an entity block (first token equal to the
current entity), if the value token does not parse as a number, or parses to
numeric zero, the line leaves the whole parser state unchanged — the cell
stays absent and no exception is raised. -/
theorem c2_falsy_value_skipped (b e : Nat) (fields : List (List Char)) (st : ParseState)
    (line : List Char) (rest : List (List Char)) (vtok : List Char)
    (hin : st.in_sec = true)
    (hne : st.sec ≠ "END SECURITY".data)
    (hsplit : pySplitPipe4 line = st.sec :: rest)
    (hv : rest.get? 1 = some vtok)
    (hval : ∀ v, pyFloatParse vtok = some v → v.1 = 0) :
    processLine b e fields st line = .ok st := by
  unfold processLine
  rw [hsplit]
  simp only [hin, if_true]
  rw [if_neg hne]
  split
  next heq => rw [heq] at hv; cases hv
  next vtok2 heq =>
    rw [heq] at hv
    injection hv with h2
    subst h2
    split
    next => rfl
    next v hp => rw [if_pos (hval v hp)]

/-- C2 witness: inside an `IBM` block, a non-numeric value token leaves the
state untouched without raising. -/
theorem c2_falsy_value_skipped_witness :
    processLine 737425 737426 ["PX_LAST".data]
        ⟨true, "IBM".data, "PX_LAST".data, [("IBM".data, mkEmptyDF 737425 737426 ["PX_LAST".data])], []⟩
        "IBM|01/01/2020|xyz|\n".data
      = .ok ⟨true, "IBM".data, "PX_LAST".data,
          [("IBM".data, mkEmptyDF 737425 737426 ["PX_LAST".data])], []⟩ :=
  c2_falsy_value_skipped 737425 737426 ["PX_LAST".data] _
    "IBM|01/01/2020|xyz|\n".data
    ["01/01/2020".data, "xyz".data, "\n".data] "xyz".data
    rfl (by decide) (by decide) (by decide)
    (by
      intro v h
      rw [show pyFloatParse "xyz".data = none from by decide] at h
      cases h)

/-- C4: a data line inside an entity block whose first token is neither the
`END SECURITY` directive nor the current entity identifier makes the parser
raise the assertion failure (a fatal, non-recoverable error). -/
theorem c4_entity_mismatch_fatal (b e : Nat) (fields : List (List Char)) (st : ParseState)
    (line : List Char) (b0 : List Char) (rest : List (List Char))
    (hin : st.in_sec = true)
    (hsplit : pySplitPipe4 line = b0 :: rest)
    (hnes : b0 ≠ "END SECURITY".data)
    (hneq : b0 ≠ st.sec) :
    processLine b e fields st line = .error (.assertMismatch b0 st.sec) := by
  unfold processLine
  rw [hsplit]
  simp only [hin, if_true]
  rw [if_neg hnes, if_neg hneq]

/-- C4 witness: a line starting with `MSFT` inside an `IBM` block aborts the
parse with the assertion failure. -/
theorem c4_entity_mismatch_fatal_witness :
    processLine 737425 737426 ["PX_LAST".data]
        ⟨true, "IBM".data, "PX_LAST".data, [("IBM".data, mkEmptyDF 737425 737426 ["PX_LAST".data])], []⟩
        "MSFT|01/01/2020|1.0|\n".data
      = .error (.assertMismatch "MSFT".data "IBM".data) :=
  c4_entity_mismatch_fatal 737425 737426 ["PX_LAST".data] _ _ "MSFT".data
    ["01/01/2020".data, "1.0".data, "\n".data] rfl (by decide) (by decide) (by decide)

/-- C5: an `END SECURITY` line whose return-code token parses to an integer
ends the block without raising and returns to the outside state, keeping the
tables built so far; a non-zero code appends exactly one warning naming the
current entity, a zero code appends none. -/
theorem c5_end_security_warning (b e : Nat) (fields : List (List Char)) (st : ParseState)
    (line : List Char) (rest : List (List Char)) (t : List Char) (rc : Int)
    (hin : st.in_sec = true)
    (hsplit : pySplitPipe4 line = "END SECURITY".data :: rest)
    (ht : rest.get? 2 = some t)
    (hrc : pyIntParse t = some rc) :
    processLine b e fields st line =
      .ok { st with
        in_sec := false
        warnings := st.warnings ++ (if rc ≠ 0 then [(rc, st.sec)] else []) } := by
  unfold processLine
  rw [hsplit]
  simp only [hin, if_true]
  split
  next heq => rw [heq] at ht; cases ht
  next t2 heq =>
    rw [heq] at ht
    injection ht with h2
    subst h2
    split
    next hpi => rw [hpi] at hrc; cases hrc
    next rc2 hpi =>
      rw [hpi] at hrc
      injection hrc with h3
      subst h3
      by_cases h0 : rc2 = 0 <;> simp [h0]

/-- C5 witness: `END SECURITY|IBM|PX_LAST|12` logs the warning `(12, IBM)`
and continues with the table intact; a zero return code logs nothing. -/
theorem c5_end_security_warning_witness :
    processLine 737425 737426 ["PX_LAST".data]
        ⟨true, "IBM".data, "PX_LAST".data, [("IBM".data, mkEmptyDF 737425 737426 ["PX_LAST".data])], []⟩
        "END SECURITY|IBM|PX_LAST|12\n".data
      = .ok ⟨false, "IBM".data, "PX_LAST".data,
          [("IBM".data, mkEmptyDF 737425 737426 ["PX_LAST".data])], [((12 : Int), "IBM".data)]⟩ := by
  have h := c5_end_security_warning 737425 737426 ["PX_LAST".data]
    ⟨true, "IBM".data, "PX_LAST".data, [("IBM".data, mkEmptyDF 737425 737426 ["PX_LAST".data])], []⟩
    "END SECURITY|IBM|PX_LAST|12\n".data
    ["IBM".data, "PX_LAST".data, "12\n".data] "12\n".data 12
    rfl (by decide) (by decide) (by decide)
  rw [h]
  rfl

/-- C10: a data line inside an entity block whose value token parses to a
non-zero number but whose date token is not a valid `DD/MM/YYYY` date makes
the parser raise an uncaught error (the `strptime` failure), in contrast
with the soft handling of bad value tokens. -/
theorem c10_bad_date_fatal (b e : Nat) (fields : List (List Char)) (st : ParseState)
    (line : List Char) (rest : List (List Char)) (dtok vtok : List Char) (v : Int × Int)
    (hin : st.in_sec = true)
    (hne : st.sec ≠ "END SECURITY".data)
    (hsplit : pySplitPipe4 line = st.sec :: rest)
    (hd : rest.get? 0 = some dtok)
    (hv : rest.get? 1 = some vtok)
    (hval : pyFloatParse vtok = some v)
    (hvz : v.1 ≠ 0)
    (hdate : parseDate dtok = none) :
    processLine b e fields st line = .error (.valueError dtok) := by
  unfold processLine
  rw [hsplit]
  simp only [hin, if_true]
  rw [if_neg hne]
  split
  next heq => rw [heq] at hv; cases hv
  next vtok2 heq =>
    rw [heq] at hv
    injection hv with h2
    subst h2
    split
    next hp => rw [hp] at hval; cases hval
    next v2 hp =>
      rw [hp] at hval
      injection hval with h3
      subst h3
      rw [if_neg hvz]
      split
      next heq2 => rw [heq2] at hd; cases hd
      next dtok2 heq2 =>
        rw [heq2] at hd
        injection hd with h4
        subst h4
        rw [hdate]

/-- C10 witness: value `5.0` with ISO-formatted date `2020-01-02` raises. -/
theorem c10_bad_date_fatal_witness :
    processLine 737425 737426 ["PX_LAST".data]
        ⟨true, "IBM".data, "PX_LAST".data, [("IBM".data, mkEmptyDF 737425 737426 ["PX_LAST".data])], []⟩
        "IBM|2020-01-02|5.0|\n".data
      = .error (.valueError "2020-01-02".data) :=
  c10_bad_date_fatal 737425 737426 ["PX_LAST".data] _
    "IBM|2020-01-02|5.0|\n".data
    ["2020-01-02".data, "5.0".data, "\n".data] "2020-01-02".data "5.0".data (50, -1)
    rfl (by decide) (by decide) (by decide) (by decide) (by decide) (by decide) (by decide)

/-! ## Decimal printing (`str(counter)`) is injective -/

/-- With enough fuel, `Nat.toDigitsCore` prepends the digits of `n` to its
accumulator. -/
theorem toDigitsCore_eq_toDigits_append (n : Nat) :
    ∀ f l, n < f → Nat.toDigitsCore 10 f n l = Nat.toDigits 10 n ++ l := by
  induction n using Nat.strong_induction_on with
  | _ n ih =>
    intro f l hf
    match f with
    | 0 => exact absurd hf (Nat.not_lt_zero n)
    | f + 1 =>
      by_cases h0 : n / 10 = 0
      · simp [Nat.toDigitsCore, Nat.toDigits, h0]
      · have hn0 : 0 < n := by omega
        have hdiv : n / 10 < n := Nat.div_lt_self hn0 (by omega)
        have hlt : n / 10 < f := by
          have hnf : n ≤ f := Nat.lt_succ_iff.mp hf
          omega
        have lhs : Nat.toDigitsCore 10 (f + 1) n l
            = Nat.toDigitsCore 10 f (n / 10) (Nat.digitChar (n % 10) :: l) := by
          simp [Nat.toDigitsCore, h0]
        have rhs : Nat.toDigits 10 n
            = Nat.toDigitsCore 10 n (n / 10) [Nat.digitChar (n % 10)] := by
          simp [Nat.toDigits, Nat.toDigitsCore, h0]
        rw [lhs, rhs, ih (n / 10) hdiv f _ hlt, ih (n / 10) hdiv n _ hdiv, List.append_assoc]
        rfl

/-- Peeling the last digit off the decimal representation. -/
theorem toDigits_ten_step (n : Nat) (h0 : n / 10 ≠ 0) :
    Nat.toDigits 10 n = Nat.toDigits 10 (n / 10) ++ [Nat.digitChar (n % 10)] := by
  have hn0 : 0 < n := by omega
  have hdiv : n / 10 < n := Nat.div_lt_self hn0 (by omega)
  have h1 : Nat.toDigits 10 n = Nat.toDigitsCore 10 n (n / 10) [Nat.digitChar (n % 10)] := by
    simp [Nat.toDigits, Nat.toDigitsCore, h0]
  rw [h1, toDigitsCore_eq_toDigits_append (n / 10) n _ hdiv]

/-- The numeric value of a digit character below ten. -/
theorem dval_digitChar (d : Nat) (h : d < 10) :
    (Nat.digitChar d).toNat - '0'.toNat = d := by
  interval_cases d <;> rfl

/-- `digitsVal` consumes an appended final digit as the ones place. -/
theorem digitsVal_append_singleton (l : List Char) (c : Char) :
    digitsVal (l ++ [c]) = digitsVal l * 10 + (c.toNat - '0'.toNat) := by
  simp [digitsVal, List.foldl_append]

/-- Reading back the decimal digits of `n` recovers `n`. -/
theorem digitsVal_toDigits (n : Nat) : digitsVal (Nat.toDigits 10 n) = n := by
  induction n using Nat.strong_induction_on with
  | _ n ih =>
    by_cases h0 : n / 10 = 0
    · have hn : n < 10 := by omega
      have h1 : Nat.toDigits 10 n = [Nat.digitChar (n % 10)] := by
        simp [Nat.toDigits, Nat.toDigitsCore, h0]
      rw [h1, Nat.mod_eq_of_lt hn]
      have h3 : digitsVal [Nat.digitChar n] = 0 * 10 + ((Nat.digitChar n).toNat - '0'.toNat) := rfl
      rw [h3, dval_digitChar n hn]
      omega
    · rw [toDigits_ten_step n h0, digitsVal_append_singleton,
          ih (n / 10) (Nat.div_lt_self (by omega) (by omega)),
          dval_digitChar (n % 10) (Nat.mod_lt n (by omega))]
      omega

/-- Decimal printing of naturals is injective. -/
theorem natRepr_injective : Function.Injective Nat.repr := by
  intro a b h
  have h2 : (Nat.toDigits 10 a).asString = (Nat.toDigits 10 b).asString := h
  have h3 : Nat.toDigits 10 a = Nat.toDigits 10 b := congrArg String.data h2
  have h4 := congrArg digitsVal h3
  rwa [digitsVal_toDigits, digitsVal_toDigits] at h4

/-- Appending to a common front string is cancellative. -/
theorem stringAppendCancelLeft {a x y : String} (h : a ++ x = a ++ y) : x = y := by
  have h2 := congrArg String.data h
  simp only [String.data_append] at h2
  exact String.ext (List.append_cancel_left h2)

/-- The ids of consecutive `build_request` calls in closed form: the shared
session stem followed by successive counter values. -/
theorem ridsOf_closed_form (s : Sftp)
    (argss : List (List (String × String) × List String × List String)) :
    s.ridsOf argss = (List.range argss.length).map
      (fun i => "bbpy_" ++ s.tstr ++ "_" ++ Nat.repr (s.request_id + i + 1)) := by
  induction argss generalizing s with
  | nil => simp [Sftp.ridsOf]
  | cons a t ih =>
    have hstep : s.ridsOf (a :: t)
        = ("bbpy_" ++ s.tstr ++ "_" ++ Nat.repr (s.request_id + 1))
          :: Sftp.ridsOf { s with request_id := s.request_id + 1 } t := rfl
    simp only [List.length_cons]
    rw [hstep, ih, List.range_succ_eq_map, List.map_cons, List.map_map]
    refine congrArg₂ List.cons (by simp) ?_
    refine List.map_congr_left ?_
    intro i _
    show "bbpy_" ++ s.tstr ++ "_" ++ Nat.repr (s.request_id + 1 + i + 1)
        = "bbpy_" ++ s.tstr ++ "_" ++ Nat.repr (s.request_id + (i + 1) + 1)
    have harith : s.request_id + 1 + i + 1 = s.request_id + (i + 1) + 1 := by omega
    rw [harith]

/-- C7: within one builder session, the request identifiers of any sequence
of consecutive `build_request` calls are pairwise distinct, and the `i`-th
identifier is exactly `bbpy_<timestamp>_<counter+i+1>` — so consecutive
identifiers share the whole `<prefix>_<timestamp>_` stem and differ only in
the counter suffix. -/
theorem c7_request_ids (s : Sftp)
    (argss : List (List (String × String) × List String × List String)) :
    (s.ridsOf argss).length = argss.length
    ∧ (s.ridsOf argss).Nodup
    ∧ ∀ i, i < argss.length →
        (s.ridsOf argss).getD i "" = "bbpy_" ++ s.tstr ++ "_" ++ Nat.repr (s.request_id + i + 1) := by
  have hform := ridsOf_closed_form s argss
  refine ⟨by rw [hform]; simp, ?_, ?_⟩
  · rw [hform]
    refine List.Nodup.map ?_ (List.nodup_range _)
    intro i j hij
    have h1 := stringAppendCancelLeft hij
    have h2 := natRepr_injective h1
    omega
  · intro i hi
    rw [hform]
    have h2 : ((List.range argss.length).map
        (fun i => "bbpy_" ++ s.tstr ++ "_" ++ Nat.repr (s.request_id + i + 1)))[i]?
        = some ("bbpy_" ++ s.tstr ++ "_" ++ Nat.repr (s.request_id + i + 1)) := by
      rw [List.getElem?_map, List.getElem?_range hi]
      rfl
    rw [List.getD_eq_getElem?_getD, h2]
    rfl

/-- C7 witness: two consecutive builds in one session yield the distinct ids
`bbpy_20200101120000_1` and `bbpy_20200101120000_2`, differing only in the
counter suffix. -/
theorem c7_request_ids_witness :
    (Sftp.ridsOf ⟨"20200101120000", 0, "host", "firm", "pw"⟩
        [([], ["PX_LAST"], ["IBM US Equity"]), ([], ["PX_LAST"], ["IBM US Equity"])]).getD 0 ""
      = "bbpy_20200101120000_1"
    ∧ (Sftp.ridsOf ⟨"20200101120000", 0, "host", "firm", "pw"⟩
        [([], ["PX_LAST"], ["IBM US Equity"]), ([], ["PX_LAST"], ["IBM US Equity"])]).getD 1 ""
      = "bbpy_20200101120000_2"
    ∧ (Sftp.ridsOf ⟨"20200101120000", 0, "host", "firm", "pw"⟩
        [([], ["PX_LAST"], ["IBM US Equity"]), ([], ["PX_LAST"], ["IBM US Equity"])]).Nodup := by
  have h := c7_request_ids ⟨"20200101120000", 0, "host", "firm", "pw"⟩
    [([], ["PX_LAST"], ["IBM US Equity"]), ([], ["PX_LAST"], ["IBM US Equity"])]
  exact ⟨(h.2.2 0 (by decide)).trans (by decide),
         (h.2.2 1 (by decide)).trans (by decide), h.2.1⟩

/-! ## The request text layout (refinement of `build_request`) -/

/-- Joining a nonempty list of lines, first line peeled off. -/
theorem joinSep_cons (sep : String) (a : String) (l : List String) :
    joinSep sep (a :: l) = a ++ (if l = [] then "" else sep ++ joinSep sep l) := by
  cases l with
  | nil => simp [joinSep]
  | cons b t => simp [joinSep, String.append_assoc]

/-- The header text produced by `_build_header` (template chunks with the
substituted firm name and reply-file name, then the joined caller options)
is exactly the spec-side line-by-line header block. -/
theorem build_header_text_eq (u rid : String) (headers : List (String × String)) :
    "\n            FIRMNAME=" ++ u
      ++ "\n            REPLYFILENAME=" ++ rid
      ++ ".dat\n            COMPRESS=yes\n            PROGRAMFLAG=oneshot\n        "
      ++ joinSep "\n" (headers.map (fun kv => kv.1 ++ "=" ++ kv.2))
    = specHeaderBlock u rid headers := by
  cases headers with
  | nil =>
    simp only [specHeaderBlock, specMandatoryLines, specOptionLines, List.map_nil,
      List.cons_append, List.nil_append, joinSep, String.append_assoc]
    rfl
  | cons kv rest =>
    simp only [specHeaderBlock, specMandatoryLines, specOptionLines, List.map_cons,
      List.cons_append, List.nil_append, joinSep, joinSep_cons, String.append_assoc]
    rfl

/-- C6: the text returned by `build_request` is the concatenation, in fixed
order, of the opening marker line, the header block (mandatory entries:
firm name, reply-file name `<rid>.dat`, `COMPRESS=yes`,
`PROGRAMFLAG=oneshot`, followed by the caller's options, one `KEY=VALUE`
per line), the fields block between its markers with one field per line,
the data block between its markers with one data line per line, and the
closing marker line; empty field or data lists are legal and leave an empty
payload between the block markers. -/
theorem c6_request_text_layout (s : Sftp) (headers : List (String × String))
    (fields data : List String) :
    (s.build_request headers fields data).2.2
      = specRequestText s.username ((s.build_request headers fields data).2.1) headers fields data
    ∧ Sftp.build_fields [] = Sftp.start_of_fields ++ Sftp.end_of_fields
    ∧ Sftp.build_data [] = Sftp.start_of_data ++ Sftp.end_of_data := by
  refine ⟨?_, by simp [Sftp.build_fields, joinSep], by simp [Sftp.build_data, joinSep]⟩
  show Sftp.opening_stanza
      ++ ("\n            FIRMNAME=" ++ s.username
          ++ "\n            REPLYFILENAME=" ++ ("bbpy_" ++ s.tstr ++ "_" ++ Nat.repr (s.request_id + 1))
          ++ ".dat\n            COMPRESS=yes\n            PROGRAMFLAG=oneshot\n        "
          ++ joinSep "\n" (headers.map (fun kv => kv.1 ++ "=" ++ kv.2)))
      ++ Sftp.build_fields fields ++ Sftp.build_data data ++ Sftp.closing_stanza
    = specRequestText s.username ("bbpy_" ++ s.tstr ++ "_" ++ Nat.repr (s.request_id + 1))
        headers fields data
  rw [build_header_text_eq]
  rfl

/-! ## The table-shape invariant of the parser -/

/-- A successful line step changes the table dictionary in one of exactly
three ways: not at all, by a `loc`-assignment into the current entity's
table, or by appending a fresh empty table for a previously unseen entity. -/
theorem processLine_dframes (b e : Nat) (fields : List (List Char)) (st st' : ParseState)
    (line : List Char) (h : processLine b e fields st line = .ok st') :
    st'.dframes = st.dframes
    ∨ (∃ d v, st'.dframes = updateA st.dframes st.sec (fun df => df.locSet d st.col v))
    ∨ (∃ s0, lookupA st.dframes s0 = none
        ∧ st'.dframes = st.dframes ++ [(s0, mkEmptyDF b e fields)]) := by
  unfold processLine at h
  iterate 12 (all_goals try split at h)
  all_goals try (cases h)
  all_goals try (exact Or.inl rfl)
  all_goals try (exact Or.inr (Or.inl ⟨_, _, rfl⟩))
  rename_i x1 sEnt heq0 x2 cCol heq1 hNot
  exact Or.inr (Or.inr ⟨sEnt, Option.not_isSome_iff_eq_none.mp hNot, rfl⟩)

/-- Looking a key up after an in-place update. -/
theorem lookupA_updateA {α β : Type} [DecidableEq α] (l : List (α × β)) (k a : α) (f : β → β) :
    lookupA (updateA l k f) a = if a = k then (lookupA l a).map f else lookupA l a := by
  induction l with
  | nil => by_cases h : a = k <;> simp [updateA, lookupA, h]
  | cons p t ih =>
    obtain ⟨pk, pv⟩ := p
    by_cases hk : k = pk
    · subst hk
      by_cases ha : a = k <;> simp [updateA, lookupA, ha]
    · by_cases ha : a = pk
      · subst ha
        simp [updateA, lookupA, hk, Ne.symm hk]
      · simp [updateA, lookupA, hk, ha, ih]

/-- A key absent from the front part is looked up in the appended part. -/
theorem lookupA_append_of_none {α β : Type} [DecidableEq α] {l : List (α × β)} {a : α}
    (m : List (α × β)) (h : lookupA l a = none) : lookupA (l ++ m) a = lookupA m a := by
  induction l with
  | nil => rfl
  | cons p t ih =>
    obtain ⟨pk, pv⟩ := p
    by_cases ha : a = pk
    · rw [lookupA, if_pos ha] at h
      cases h
    · rw [lookupA, if_neg ha] at h
      rw [List.cons_append, lookupA, if_neg ha]
      exact ih h

/-- A key present in the front part keeps its binding under appending. -/
theorem lookupA_append_of_some {α β : Type} [DecidableEq α] {l : List (α × β)} {a : α} {v : β}
    (m : List (α × β)) (h : lookupA l a = some v) : lookupA (l ++ m) a = some v := by
  induction l with
  | nil => cases h
  | cons p t ih =>
    obtain ⟨pk, pv⟩ := p
    by_cases ha : a = pk
    · rw [lookupA, if_pos ha] at h
      rw [List.cons_append, lookupA, if_pos ha]
      exact h
    · rw [lookupA, if_neg ha] at h
      rw [List.cons_append, lookupA, if_neg ha]
      exact ih h

/-- The freshly created table satisfies the shape invariant: its rows are
exactly the request range, its columns exactly the requested fields. -/
theorem mkEmptyDF_good (b e : Nat) (fields : List (List Char)) :
    GoodDF b e fields (mkEmptyDF b e fields) :=
  ⟨⟨[], (List.append_nil _).symm⟩, List.nodup_range' _ _, ⟨[], (List.append_nil _).symm⟩⟩

/-- A `loc`-assignment preserves the shape invariant (an unknown row or
column label is appended after the original ones, and never duplicated). -/
theorem locSet_good (b e : Nat) (fields : List (List Char)) (df : DataFrame)
    (hg : GoodDF b e fields df) (d : Nat) (c : List Char) (v : Int × Int) :
    GoodDF b e fields (df.locSet d c v) := by
  obtain ⟨⟨r1, hr1⟩, hnd, ⟨r2, hr2⟩⟩ := hg
  refine ⟨?_, ?_, ?_⟩
  · by_cases hd : d ∈ df.index
    · refine ⟨r1, ?_⟩
      show (if d ∈ df.index then df.index else df.index ++ [d]) = pdDateRange b e ++ r1
      rw [if_pos hd, hr1]
    · refine ⟨r1 ++ [d], ?_⟩
      show (if d ∈ df.index then df.index else df.index ++ [d]) = pdDateRange b e ++ (r1 ++ [d])
      rw [if_neg hd, hr1, List.append_assoc]
  · by_cases hd : d ∈ df.index
    · show (if d ∈ df.index then df.index else df.index ++ [d]).Nodup
      rw [if_pos hd]
      exact hnd
    · show (if d ∈ df.index then df.index else df.index ++ [d]).Nodup
      rw [if_neg hd, List.nodup_append]
      refine ⟨hnd, List.nodup_singleton d, ?_⟩
      intro x hx hxd
      rw [List.mem_singleton.mp hxd] at hx
      exact hd hx
  · by_cases hc : c ∈ df.columns
    · refine ⟨r2, ?_⟩
      show (if c ∈ df.columns then df.columns else df.columns ++ [c]) = fields ++ r2
      rw [if_pos hc, hr2]
    · refine ⟨r2 ++ [c], ?_⟩
      show (if c ∈ df.columns then df.columns else df.columns ++ [c]) = fields ++ (r2 ++ [c])
      rw [if_neg hc, hr2, List.append_assoc]

/-- One line step preserves the shape invariant of every table. -/
theorem processLine_good (b e : Nat) (fields : List (List Char)) (st st' : ParseState)
    (line : List Char) (hg : GoodState b e fields st)
    (h : processLine b e fields st line = .ok st') : GoodState b e fields st' := by
  rcases processLine_dframes b e fields st st' line h with hd | ⟨d, v, hd⟩ | ⟨s0, hs0, hd⟩
  · intro s df hdf; rw [hd] at hdf; exact hg s df hdf
  · intro s df hdf
    rw [hd, lookupA_updateA] at hdf
    by_cases hk : s = st.sec
    · rw [if_pos hk] at hdf
      obtain ⟨df0, hdf0, hmap⟩ := Option.map_eq_some'.mp hdf
      rw [← hmap]
      exact locSet_good b e fields df0 (hg s df0 hdf0) d st.col v
    · rw [if_neg hk] at hdf
      exact hg s df hdf
  · intro s df hdf
    rw [hd] at hdf
    cases hl : lookupA st.dframes s with
    | none =>
      rw [lookupA_append_of_none _ hl] at hdf
      by_cases hseq : s = s0
      · simp only [lookupA, hseq, if_true] at hdf
        injection hdf with h2
        rw [← h2]
        exact mkEmptyDF_good b e fields
      · simp [lookupA, hseq] at hdf
    | some df0 =>
      rw [lookupA_append_of_some _ hl] at hdf
      injection hdf with h2
      rw [← h2]
      exact hg s df0 hl

/-- The only way a line step binds a previously unbound entity is by
creating the empty table spanning the request range and fields. -/
theorem processLine_creates (b e : Nat) (fields : List (List Char)) (st st' : ParseState)
    (line : List Char) (s : List Char) (df : DataFrame)
    (h : processLine b e fields st line = .ok st')
    (h0 : lookupA st.dframes s = none)
    (h1 : lookupA st'.dframes s = some df) : df = mkEmptyDF b e fields := by
  rcases processLine_dframes b e fields st st' line h with hd | ⟨d, v, hd⟩ | ⟨s0, hs0, hd⟩
  · rw [hd, h0] at h1; cases h1
  · rw [hd, lookupA_updateA] at h1
    by_cases hk : s = st.sec
    · rw [if_pos hk, h0] at h1; cases h1
    · rw [if_neg hk, h0] at h1; cases h1
  · rw [hd, lookupA_append_of_none _ h0] at h1
    by_cases hseq : s = s0
    · simp only [lookupA, hseq, if_true] at h1
      injection h1 with h2
      exact h2.symm
    · simp [lookupA, hseq] at h1

/-- The whole line loop preserves the shape invariant. -/
theorem parseLines_good (b e : Nat) (fields : List (List Char)) :
    ∀ lines st st', GoodState b e fields st →
      parseLines b e fields st lines = .ok st' → GoodState b e fields st' := by
  intro lines
  induction lines with
  | nil =>
    intro st st' hg h
    injection h with h2
    rw [← h2]
    exact hg
  | cons l ls ih =>
    intro st st' hg h
    unfold parseLines at h
    cases hp : processLine b e fields st l with
    | error er => rw [hp] at h; cases h
    | ok st2 =>
      rw [hp] at h
      exact ih st2 st' (processLine_good b e fields st st2 l hg hp) h

/-- C3 (amended): for `beginDate ≤ endDate`, every table produced by a
successful parse has one row for each calendar date of the inclusive range,
these rows come first and no row label repeats — so each in-range date has
exactly one row — and likewise the requested fields come first among the
columns; extra rows (columns) can only come from stored data lines whose
date falls outside the range (whose block column is not a requested field).
When a table is first created for an entity it is exactly the empty table
over the range and the requested fields, all cells absent. -/
theorem c3_amended_table_shape (b e : Nat) (fields : List String) (response : String)
    (hbe : b ≤ e) :
    (∀ st', parse_hist_security_response response b e fields = .ok st' →
      ∀ s df, lookupA st'.dframes s = some df →
        (∃ r1, df.index = pdDateRange b e ++ r1) ∧ df.index.Nodup
          ∧ (∃ r2, df.columns = fields.map String.data ++ r2))
    ∧ (∀ st st' line s df, processLine b e (fields.map String.data) st line = .ok st' →
        lookupA st.dframes s = none → lookupA st'.dframes s = some df →
        df = mkEmptyDF b e (fields.map String.data)) := by
  constructor
  · intro st' hok s df hdf
    have hinit : GoodState b e (fields.map String.data) initState := by
      intro s0 df0 hdf0
      cases hdf0
    exact parseLines_good b e (fields.map String.data) (pyLines response.data) initState st'
      hinit hok s df hdf
  · intro st st' line s df h h0 h1
    exact processLine_creates b e (fields.map String.data) st st' line s df h h0 h1

/-- C3 counterexample to the claim as stated: parsing a response whose data
line stores value 5 under date 01/01/2021 (ordinal 737791) and column
`PX_WRONG` against the range 2020-01-01..2020-01-02 (ordinals 737425-737426)
and field list `[PX_LAST]` yields a table with a third row outside the range
and a second, unrequested column — not exactly one row per range date and
one column per requested field. -/
theorem c3_counterexample :
    (Except.toOption (parse_hist_security_response
        "START SECURITY|IBM|PX_WRONG|\nIBM|01/01/2021|5|\nEND SECURITY|IBM|PX_WRONG|0\n"
        737425 737426 ["PX_LAST"])).bind
      (fun st => (lookupA st.dframes "IBM".data).map (fun df => (df.index, df.columns)))
    = some ([737425, 737426, 737791], ["PX_LAST".data, "PX_WRONG".data])
    ∧ pdDateRange 737425 737426 = [737425, 737426] := by
  constructor
  · decide
  · decide

/-- C3 witness: a response with one `START SECURITY` block over the range
2020-01-01..2020-01-02 and field `PX_LAST` yields the freshly created
table, whose rows are exactly the two range dates and whose columns are
exactly the requested field. -/
theorem c3_amended_table_shape_witness :
    (∃ r1, (mkEmptyDF 737425 737426 ["PX_LAST".data]).index = pdDateRange 737425 737426 ++ r1)
    ∧ (mkEmptyDF 737425 737426 ["PX_LAST".data]).index.Nodup
    ∧ (∃ r2, (mkEmptyDF 737425 737426 ["PX_LAST".data]).columns
        = ["PX_LAST"].map String.data ++ r2) :=
  (c3_amended_table_shape 737425 737426 ["PX_LAST"] "START SECURITY|IBM|PX_LAST|\n"
      (by decide)).1
    ⟨true, "IBM".data, "PX_LAST".data,
      [("IBM".data, mkEmptyDF 737425 737426 ["PX_LAST".data])], []⟩
    (by rfl) "IBM".data (mkEmptyDF 737425 737426 ["PX_LAST".data]) (by decide)
